import Mathlib

/-!
Shallow embedding of the ray-tracing intersection core (`src/scene.rs`).

Scalars (`f32` in the source) are modelled as real numbers.  The only place
where IEEE non-finite values matter for the observable behaviour of the code
is the two divisions producing the ray parameter `t` (sphere root and plane
root): dividing by zero in `f32` yields `inf`/`-inf`/`NaN`, which the
`Range::contains` check (`start <= t && t < end`, with real-valued bounds)
then rejects, because every comparison against `NaN` is false and `t < end`
is false for `t = inf` while `start <= t` is false for `t = -inf`.
We model this with an explicit floating-result type `Flt` for the quotient:
finite quotients carry their exact real value, division by zero produces the
appropriate non-finite tag, and interval containment is false on every
non-finite tag.  All other arithmetic in the code maps finite inputs to
finite outputs and is modelled as exact real arithmetic.
-/

/-- A 3-component vector (`bevy::math::Vec3` with `f32` fields). -/
structure Vec3 where
  x : ℝ
  y : ℝ
  z : ℝ

instance : Add Vec3 := ⟨fun a b => ⟨a.x + b.x, a.y + b.y, a.z + b.z⟩⟩
instance : Sub Vec3 := ⟨fun a b => ⟨a.x - b.x, a.y - b.y, a.z - b.z⟩⟩
instance : SMul ℝ Vec3 := ⟨fun t v => ⟨t * v.x, t * v.y, t * v.z⟩⟩
instance : Zero Vec3 := ⟨⟨0, 0, 0⟩⟩

/-- Dot product (`Vec3::dot`). -/
def dot (a b : Vec3) : ℝ := a.x * b.x + a.y * b.y + a.z * b.z

/-- `Vec3::normalize`: divide by the length `sqrt (v ⬝ v)`. -/
noncomputable def Vec3.normalize (v : Vec3) : Vec3 :=
  (1 / Real.sqrt (dot v v)) • v

/-- An RGBA colour (`bevy::prelude::Color`, stored as four `f32` channels). -/
structure Color where
  r : ℝ
  g : ℝ
  b : ℝ
  a : ℝ

/-- `Color::rgb(r, g, b)`: alpha defaults to 1. -/
def Color.rgb (r g b : ℝ) : Color := ⟨r, g, b, 1⟩

/-- `Color::default()` is white. -/
def Color.default : Color := Color.rgb 1 1 1

/-- The material record `Mat` of `scene.rs`. -/
structure Mat where
  albedo : Color
  roughness : ℝ
  emission : ℝ
  emission_color : Color
  specular_chance : ℝ

/-- `Mat::default()` (all-zero numeric fields, default colours). -/
def Mat.default : Mat :=
  { albedo := Color.default
    roughness := 0
    emission := 0
    emission_color := Color.default
    specular_chance := 0 }

/-- A ray (`bevy::prelude::Ray`): origin and (not necessarily unit) direction. -/
structure Ray where
  origin : Vec3
  direction : Vec3

/-- The caller-supplied parameter range (`std::ops::Range<f32>`),
half-open: `t` is contained iff `lo ≤ t ∧ t < hi`. -/
structure Range where
  lo : ℝ
  hi : ℝ

/-- Result of an `f32` division: either an exact finite quotient, or one of
the IEEE non-finite outcomes produced by a zero divisor. -/
inductive Flt where
  | fin (x : ℝ)
  | inf
  | ninf
  | nan

/-- `f32` division of finite operands: finite quotient when the divisor is
nonzero; `±inf` or `NaN` when the divisor is zero, by the dividend's sign. -/
noncomputable def fdiv (num den : ℝ) : Flt :=
  if den = 0 then
    if num = 0 then .nan else if 0 < num then .inf else .ninf
  else .fin (num / den)

/-- `Range::<f32>::contains(&t)`, i.e. `lo <= t && t < hi`: false on every
non-finite `t` (comparisons with `NaN` are false; `inf < hi` is false and
`lo ≤ -inf` is false for real bounds). -/
def Range.containsF (i : Range) : Flt → Prop
  | .fin x => i.lo ≤ x ∧ x < i.hi
  | _ => False

/-- `HitRecord` (from `crate::hittable`, fields as used by `scene.rs` and
described in the spec): hit point, surface normal, ray parameter, and a
copy of the hit surface's material. -/
structure HitRecord where
  point : Vec3
  normal : Vec3
  t : ℝ
  material : Mat

/-- `Sphere` of `scene.rs`. -/
structure Sphere where
  center : Vec3
  radius : ℝ
  material : Mat

/-- `impl Hittable for Sphere::hit`: half-b quadratic, near root only. -/
noncomputable def Sphere.hit (s : Sphere) (r : Ray) (i : Range) : Option HitRecord :=
  let origin := r.origin - s.center
  let a := dot r.direction r.direction
  let b := dot origin r.direction
  let c := dot origin origin - s.radius * s.radius
  let dis := b * b - a * c
  if dis < 0 then none
  else
    match fdiv (-b - Real.sqrt dis) a with
    | .fin t =>
      if i.lo ≤ t ∧ t < i.hi then
        let hit := origin + t • r.direction
        some { point := hit + s.center, normal := hit.normalize, t := t,
               material := s.material }
      else none
    | _ => none

/-- `Plane` of `scene.rs`. -/
structure Plane where
  point : Vec3
  normal : Vec3
  material : Mat

/-- `impl Hittable for Plane::hit`. -/
noncomputable def Plane.hit (p : Plane) (r : Ray) (i : Range) : Option HitRecord :=
  match fdiv (dot p.normal (p.point - r.origin)) (dot p.normal r.direction) with
  | .fin t =>
    if i.lo ≤ t ∧ t < i.hi then
      some { point := r.origin + t • r.direction, normal := p.normal, t := t,
             material := p.material }
    else none
  | _ => none

/-- The closed shape union `Shape` of `scene.rs`. -/
inductive Shape where
  | sphere (s : Sphere)
  | plane (p : Plane)

/-- `impl Hittable for Shape::hit`: dispatch to the active variant. -/
noncomputable def Shape.hit (sh : Shape) (r : Ray) (i : Range) : Option HitRecord :=
  match sh with
  | .sphere s => s.hit r i
  | .plane p => p.hit r i

/-- Modelled from the spec: the `Hittable` implementation for the shape list
(`self.shapes.hit` in `Scene::hit`) lives in `crate::hittable`, which is not
part of the provided sources.  Per the spec, it scans all shapes, calling
each one's `hit` with the same caller-supplied interval, and keeps the hit
with the smallest `t`; ties are broken in favour of the shape that comes
first in iteration order; if no shape reports a hit, no hit is reported. -/
noncomputable def hitList : List Shape → Ray → Range → Option HitRecord
  | [], _, _ => none
  | sh :: rest, r, i =>
    match sh.hit r i, hitList rest r i with
    | none, later => later
    | some b, none => some b
    | some b, some h => if h.t < b.t then some h else some b

/-- `Scene` of `scene.rs`. -/
structure Scene where
  shapes : List Shape
  accumulate : Bool
  frame_index : ℤ
  accumulation : List ℝ

/-- `Scene::new`. -/
def Scene.new (shapes : List Shape) : Scene :=
  { shapes := shapes
    accumulate := false
    frame_index := 0
    accumulation := [] }

/-- `Scene::resize`. -/
def Scene.resize (s : Scene) : Scene := { s with frame_index := -1 }

/-- `impl Hittable for Scene::hit`. -/
noncomputable def Scene.hit (s : Scene) (r : Ray) (i : Range) : Option HitRecord :=
  hitList s.shapes r i

/-- `impl Default for Scene`: the documented four-sphere default scene. -/
def Scene.default : Scene :=
  Scene.new
    [ Shape.sphere
        { center := ⟨0, 0, 0⟩
          radius := 1
          material := { Mat.default with albedo := Color.rgb 1 0 1, roughness := 0.8 } }
    , Shape.sphere
        { center := ⟨2, 0, -1⟩
          radius := 1
          material := { Mat.default with albedo := Color.rgb 0.2 0.7 0.1, roughness := 0.6 } }
    , Shape.sphere
        { center := ⟨0, -101, 0⟩
          radius := 100
          material := { Mat.default with albedo := Color.rgb 0.2 0.3 6, roughness := 0.5 } }
    , Shape.sphere
        { center := ⟨100, 101, -20⟩
          radius := 100
          material := { Mat.default with emission := 3, emission_color := Color.rgb 0.9 0.9 0.7 } } ]

@[simp] theorem Vec3.add_x (a b : Vec3) : (a + b).x = a.x + b.x := rfl
@[simp] theorem Vec3.add_y (a b : Vec3) : (a + b).y = a.y + b.y := rfl
@[simp] theorem Vec3.add_z (a b : Vec3) : (a + b).z = a.z + b.z := rfl
@[simp] theorem Vec3.sub_x (a b : Vec3) : (a - b).x = a.x - b.x := rfl
@[simp] theorem Vec3.sub_y (a b : Vec3) : (a - b).y = a.y - b.y := rfl
@[simp] theorem Vec3.sub_z (a b : Vec3) : (a - b).z = a.z - b.z := rfl
@[simp] theorem Vec3.smul_x (t : ℝ) (v : Vec3) : (t • v).x = t * v.x := rfl
@[simp] theorem Vec3.smul_y (t : ℝ) (v : Vec3) : (t • v).y = t * v.y := rfl
@[simp] theorem Vec3.smul_z (t : ℝ) (v : Vec3) : (t • v).z = t * v.z := rfl

@[simp] theorem Vec3.mk_add_mk (a b c d e f : ℝ) :
    (⟨a, b, c⟩ + ⟨d, e, f⟩ : Vec3) = ⟨a + d, b + e, c + f⟩ := rfl
@[simp] theorem Vec3.mk_sub_mk (a b c d e f : ℝ) :
    (⟨a, b, c⟩ - ⟨d, e, f⟩ : Vec3) = ⟨a - d, b - e, c - f⟩ := rfl
@[simp] theorem Vec3.smul_mk (t a b c : ℝ) :
    (t • (⟨a, b, c⟩ : Vec3)) = ⟨t * a, t * b, t * c⟩ := rfl

theorem fdiv_eq_fin {num den x : ℝ} (h : fdiv num den = .fin x) :
    den ≠ 0 ∧ x = num / den := by
  unfold fdiv at h
  by_cases hd : den = 0
  · rw [if_pos hd] at h
    split_ifs at h
  · rw [if_neg hd] at h
    exact ⟨hd, (Flt.fin.injEq _ _ ▸ h).symm⟩

theorem fdiv_of_den_zero (num : ℝ) :
    fdiv num 0 = .nan ∨ fdiv num 0 = .inf ∨ fdiv num 0 = .ninf := by
  unfold fdiv
  rw [if_pos rfl]
  split_ifs <;> simp

theorem plane_hit_none_iff (p : Plane) (r : Ray) (i : Range) :
    p.hit r i = none ↔
      ¬ i.containsF (fdiv (dot p.normal (p.point - r.origin)) (dot p.normal r.direction)) := by
  unfold Plane.hit
  split
  next t heq =>
    rw [heq]
    by_cases hc : i.lo ≤ t ∧ t < i.hi
    · simp [Range.containsF, hc]
    · simp [Range.containsF, hc]
  next hne =>
    cases hfd : fdiv (dot p.normal (p.point - r.origin)) (dot p.normal r.direction) with
    | fin x => exact absurd rfl (hfd ▸ hne x)
    | inf => simp [Range.containsF]
    | ninf => simp [Range.containsF]
    | nan => simp [Range.containsF]

/-- Claim C8: `Scene::new(shapes)` keeps the given shape sequence as is and
initialises `accumulate = false`, `frame_index = 0`, empty accumulation. -/
theorem scene_new_fields (shapes : List Shape) :
    (Scene.new shapes).shapes = shapes ∧
    (Scene.new shapes).accumulate = false ∧
    (Scene.new shapes).frame_index = 0 ∧
    (Scene.new shapes).accumulation = [] :=
  ⟨rfl, rfl, rfl, rfl⟩

/-- Claim C7: `resize()` sets `frame_index` to `-1` regardless of the prior
state, and is idempotent: a second `resize()` leaves the scene unchanged. -/
theorem resize_sets_frame_index_and_idempotent (s : Scene) :
    s.resize.frame_index = -1 ∧ s.resize.resize = s.resize :=
  ⟨rfl, rfl⟩

/-- Claim C9: `resize()` changes no field other than `frame_index`: shapes,
the accumulate flag and the accumulation buffer are untouched. -/
theorem resize_preserves_other_fields (s : Scene) :
    s.resize.shapes = s.shapes ∧
    s.resize.accumulate = s.accumulate ∧
    s.resize.accumulation = s.accumulation :=
  ⟨rfl, rfl, rfl⟩

/-- Claim C10: the sphere's radius enters `hit` only as `radius * radius`,
so negating the radius leaves the result of `hit` unchanged. -/
theorem sphere_hit_neg_radius (s : Sphere) (r : Ray) (i : Range) :
    Sphere.hit { s with radius := -s.radius } r i = s.hit r i := by
  simp only [Sphere.hit, neg_mul_neg]

/-- Claim C4: `Plane::hit` computes `t = N·(P - O) / N·D` and returns a
record exactly when that `t` is contained in the supplied interval; the
returned point is `O + D·t` and lies on the plane (`N·(H - P) = 0`), the
returned normal is the stored `N` unchanged, the parameter is the computed
`t`, and the material is the plane's material. -/
theorem plane_hit_characterization (p : Plane) (r : Ray) (i : Range) :
    (p.hit r i = none ↔
      ¬ i.containsF (fdiv (dot p.normal (p.point - r.origin)) (dot p.normal r.direction))) ∧
    ∀ rec, p.hit r i = some rec →
      fdiv (dot p.normal (p.point - r.origin)) (dot p.normal r.direction) = .fin rec.t ∧
      i.lo ≤ rec.t ∧ rec.t < i.hi ∧
      rec.point = r.origin + rec.t • r.direction ∧
      dot p.normal (rec.point - p.point) = 0 ∧
      rec.normal = p.normal ∧
      rec.material = p.material := by
  refine ⟨plane_hit_none_iff p r i, ?_⟩
  intro rec hrec
  unfold Plane.hit at hrec
  split at hrec
  next t hf =>
    split at hrec
    next hc =>
      injection hrec with hrec
      subst hrec
      obtain ⟨hden, hx⟩ := fdiv_eq_fin hf
      have hmul : dot p.normal r.direction * t = dot p.normal (p.point - r.origin) := by
        rw [hx]; field_simp
      refine ⟨hf, hc.1, hc.2, rfl, ?_, rfl, rfl⟩
      simp only [dot, Vec3.add_x, Vec3.add_y, Vec3.add_z, Vec3.sub_x, Vec3.sub_y,
        Vec3.sub_z, Vec3.smul_x, Vec3.smul_y, Vec3.smul_z] at hmul ⊢
      linear_combination hmul
    next hc => cases hrec
  next hne => cases hrec

theorem plane_hit_characterization_witness :
    Plane.hit ⟨⟨0, 0, 1⟩, ⟨0, 0, 1⟩, Mat.default⟩ ⟨⟨0, 0, 0⟩, ⟨0, 0, 1⟩⟩ ⟨0, 10⟩ =
      some ⟨⟨0, 0, 1⟩, ⟨0, 0, 1⟩, 1, Mat.default⟩ ∧
    dot (⟨0, 0, 1⟩ : Vec3) ((⟨0, 0, 1⟩ : Vec3) - ⟨0, 0, 1⟩) = 0 := by
  have heval : Plane.hit ⟨⟨0, 0, 1⟩, ⟨0, 0, 1⟩, Mat.default⟩ ⟨⟨0, 0, 0⟩, ⟨0, 0, 1⟩⟩ ⟨0, 10⟩ =
      some ⟨⟨0, 0, 1⟩, ⟨0, 0, 1⟩, 1, Mat.default⟩ := by
    norm_num [Plane.hit, fdiv, dot, Vec3.mk.injEq, HitRecord.mk.injEq]
  have h := (plane_hit_characterization ⟨⟨0, 0, 1⟩, ⟨0, 0, 1⟩, Mat.default⟩
    ⟨⟨0, 0, 0⟩, ⟨0, 0, 1⟩⟩ ⟨0, 10⟩).2 _ heval
  exact ⟨heval, h.2.2.2.2.1⟩

/-- Claim C5: degenerate inputs never make `hit` fail, only produce no hit:
a ray parallel to a plane (`N·D = 0`), a zero plane normal, and a zero ray
direction against a sphere all yield a non-finite intermediate `t` that the
interval-containment check rejects, so `hit` returns `none`. -/
theorem degenerate_inputs_no_hit :
    (∀ (p : Plane) (r : Ray) (i : Range), dot p.normal r.direction = 0 → p.hit r i = none) ∧
    (∀ (p : Plane) (r : Ray) (i : Range), p.normal = ⟨0, 0, 0⟩ → p.hit r i = none) ∧
    (∀ (s : Sphere) (r : Ray) (i : Range), r.direction = ⟨0, 0, 0⟩ → s.hit r i = none) := by
  have hplane : ∀ (p : Plane) (r : Ray) (i : Range),
      dot p.normal r.direction = 0 → p.hit r i = none := by
    intro p r i h
    rw [plane_hit_none_iff, h]
    rcases fdiv_of_den_zero (dot p.normal (p.point - r.origin)) with h' | h' | h' <;>
      rw [h'] <;> simp [Range.containsF]
  refine ⟨hplane, ?_, ?_⟩
  · intro p r i h
    exact hplane p r i (by rw [h]; simp [dot])
  · intro s r i h
    have ha : dot r.direction r.direction = 0 := by rw [h]; simp [dot]
    have hb : dot (r.origin - s.center) r.direction = 0 := by rw [h]; simp [dot]
    simp only [Sphere.hit]
    rw [ha, hb]
    norm_num [fdiv]

theorem degenerate_inputs_no_hit_witness :
    dot (⟨0, 0, 1⟩ : Vec3) ⟨1, 0, 0⟩ = 0 ∧
    Plane.hit ⟨⟨0, 0, 1⟩, ⟨0, 0, 1⟩, Mat.default⟩ ⟨⟨0, 0, 0⟩, ⟨1, 0, 0⟩⟩ ⟨0, 10⟩ = none ∧
    Plane.hit ⟨⟨2, 3, 4⟩, ⟨0, 0, 0⟩, Mat.default⟩ ⟨⟨0, 0, 0⟩, ⟨1, 0, 0⟩⟩ ⟨0, 10⟩ = none ∧
    Sphere.hit ⟨⟨0, 0, 3⟩, 1, Mat.default⟩ ⟨⟨0, 0, 0⟩, ⟨0, 0, 0⟩⟩ ⟨0, 10⟩ = none :=
  ⟨by norm_num [dot],
   degenerate_inputs_no_hit.1 _ _ _ (by norm_num [dot]),
   degenerate_inputs_no_hit.2.1 _ _ _ rfl,
   degenerate_inputs_no_hit.2.2 _ _ _ rfl⟩

theorem dot_self_nonneg (v : Vec3) : 0 ≤ dot v v := by
  simp only [dot]
  nlinarith [mul_self_nonneg v.x, mul_self_nonneg v.y, mul_self_nonneg v.z]

theorem sphere_hit_none_of_dis_neg (s : Sphere) (r : Ray) (i : Range)
    (h : dot (r.origin - s.center) r.direction * dot (r.origin - s.center) r.direction
        - dot r.direction r.direction *
          (dot (r.origin - s.center) (r.origin - s.center) - s.radius * s.radius) < 0) :
    s.hit r i = none := by
  simp only [Sphere.hit]
  rw [if_pos h]

theorem sphere_hit_none_of_not_contained (s : Sphere) (r : Ray) (i : Range)
    (h : ¬ i.containsF (fdiv
        (-(dot (r.origin - s.center) r.direction) -
          Real.sqrt (dot (r.origin - s.center) r.direction * dot (r.origin - s.center) r.direction
            - dot r.direction r.direction *
              (dot (r.origin - s.center) (r.origin - s.center) - s.radius * s.radius)))
        (dot r.direction r.direction))) :
    s.hit r i = none := by
  simp only [Sphere.hit]
  by_cases hd : dot (r.origin - s.center) r.direction * dot (r.origin - s.center) r.direction
      - dot r.direction r.direction *
        (dot (r.origin - s.center) (r.origin - s.center) - s.radius * s.radius) < 0
  · rw [if_pos hd]
  · rw [if_neg hd]
    split
    next t heq =>
      rw [heq] at h
      simp only [Range.containsF] at h
      rw [if_neg h]
    next => rfl

/-- Claim C2: only the near quadratic root is checked, so for every interval
with a positive lower bound, a ray whose origin lies strictly inside the
sphere (`oc·oc < r²`) returns no hit, whatever its direction. -/
theorem sphere_inside_origin_no_hit (s : Sphere) (r : Ray) (i : Range)
    (hlo : 0 < i.lo)
    (hin : dot (r.origin - s.center) (r.origin - s.center) < s.radius * s.radius) :
    s.hit r i = none := by
  apply sphere_hit_none_of_not_contained
  cases hf : fdiv
      (-(dot (r.origin - s.center) r.direction) -
        Real.sqrt (dot (r.origin - s.center) r.direction * dot (r.origin - s.center) r.direction
          - dot r.direction r.direction *
            (dot (r.origin - s.center) (r.origin - s.center) - s.radius * s.radius)))
      (dot r.direction r.direction) with
  | fin t =>
    obtain ⟨ha0, ht⟩ := fdiv_eq_fin hf
    have hapos : 0 < dot r.direction r.direction :=
      lt_of_le_of_ne (dot_self_nonneg _) (Ne.symm ha0)
    have hcneg : dot (r.origin - s.center) (r.origin - s.center) - s.radius * s.radius < 0 := by
      linarith
    have hbb : dot (r.origin - s.center) r.direction * dot (r.origin - s.center) r.direction
        < dot (r.origin - s.center) r.direction * dot (r.origin - s.center) r.direction
          - dot r.direction r.direction *
            (dot (r.origin - s.center) (r.origin - s.center) - s.radius * s.radius) := by
      nlinarith
    have habs : |dot (r.origin - s.center) r.direction|
        < Real.sqrt (dot (r.origin - s.center) r.direction * dot (r.origin - s.center) r.direction
          - dot r.direction r.direction *
            (dot (r.origin - s.center) (r.origin - s.center) - s.radius * s.radius)) := by
      rw [← Real.sqrt_mul_self_eq_abs]
      exact Real.sqrt_lt_sqrt (mul_self_nonneg _) hbb
    have hnum : -(dot (r.origin - s.center) r.direction) -
        Real.sqrt (dot (r.origin - s.center) r.direction * dot (r.origin - s.center) r.direction
          - dot r.direction r.direction *
            (dot (r.origin - s.center) (r.origin - s.center) - s.radius * s.radius)) < 0 := by
      have := neg_abs_le (dot (r.origin - s.center) r.direction)
      linarith [neg_le_abs (dot (r.origin - s.center) r.direction)]
    have htneg : t < 0 := by
      rw [ht]
      exact div_neg_of_neg_of_pos hnum hapos
    simp only [Range.containsF]
    rintro ⟨h1, _⟩
    linarith
  | inf => simp [Range.containsF]
  | ninf => simp [Range.containsF]
  | nan => simp [Range.containsF]

theorem sphere_inside_origin_no_hit_witness :
    (0 : ℝ) < (1 / 10 : ℝ) ∧
    dot ((⟨0, 0, 0⟩ : Vec3) - ⟨0, 0, 0⟩) ((⟨0, 0, 0⟩ : Vec3) - ⟨0, 0, 0⟩) < 2 * 2 ∧
    Sphere.hit ⟨⟨0, 0, 0⟩, 2, Mat.default⟩ ⟨⟨0, 0, 0⟩, ⟨1, 0, 0⟩⟩ ⟨1 / 10, 10⟩ = none :=
  ⟨by norm_num, by norm_num [dot],
   sphere_inside_origin_no_hit ⟨⟨0, 0, 0⟩, 2, Mat.default⟩ ⟨⟨0, 0, 0⟩, ⟨1, 0, 0⟩⟩ ⟨1 / 10, 10⟩
     (by norm_num) (by norm_num [dot])⟩

theorem Vec3.eq_of_comps {a b : Vec3} (hx : a.x = b.x) (hy : a.y = b.y) (hz : a.z = b.z) :
    a = b := by
  cases a; cases b; simp_all

theorem quad_root_eq (A B C t : ℝ) (hA : A ≠ 0) (hdis : 0 ≤ B * B - A * C)
    (ht : t = (-B - Real.sqrt (B * B - A * C)) / A) :
    A * (t * t) + 2 * B * t + C = 0 := by
  have hAt : A * t = -B - Real.sqrt (B * B - A * C) := by
    rw [ht]; field_simp
  have hsq : (A * t + B) * (A * t + B) = B * B - A * C := by
    rw [hAt]
    have h2 : (-B - Real.sqrt (B * B - A * C) + B) * (-B - Real.sqrt (B * B - A * C) + B)
        = Real.sqrt (B * B - A * C) * Real.sqrt (B * B - A * C) := by ring
    rw [h2, Real.mul_self_sqrt hdis]
  have key : A * (A * (t * t) + 2 * B * t + C) = 0 := by linear_combination hsq
  exact (mul_eq_zero.mp key).resolve_left hA

theorem sphere_root_on_sphere (oc D : Vec3) (R t : ℝ)
    (h : dot D D * (t * t) + 2 * dot oc D * t + (dot oc oc - R * R) = 0) :
    dot (oc + t • D) (oc + t • D) = R * R := by
  simp only [dot, Vec3.add_x, Vec3.add_y, Vec3.add_z, Vec3.smul_x, Vec3.smul_y,
    Vec3.smul_z] at h ⊢
  linear_combination h

theorem dot_smul_smul (u : ℝ) (v w : Vec3) : dot (u • v) (u • w) = u * u * dot v w := by
  simp only [dot, Vec3.smul_x, Vec3.smul_y, Vec3.smul_z]
  ring

theorem normalize_self_dot (v : Vec3) (R : ℝ) (hv : dot v v = R * R) (hR : R ≠ 0) :
    dot (Vec3.normalize v) (Vec3.normalize v) = 1 := by
  simp only [Vec3.normalize, dot_smul_smul, hv, Real.sqrt_mul_self_eq_abs]
  have hRne : |R| ≠ 0 := abs_ne_zero.mpr hR
  field_simp

/-- Claim C3: with the half-b convention `a = D·D`, `b = oc·D`,
`c = oc·oc - r²`, `disc = b² - a·c`, `Sphere::hit` returns no hit when
`disc < 0` and when the near root `(-b - sqrt disc)/a` is not contained in
the interval; a returned record has its `t` in the interval, its point
exactly on the sphere, its normal equal to `normalize(point - center)` — of
unit length whenever the radius is nonzero — and a copy of the material. -/
theorem sphere_hit_characterization (s : Sphere) (r : Ray) (i : Range)
    (a b c dis : ℝ)
    (ha : a = dot r.direction r.direction)
    (hb : b = dot (r.origin - s.center) r.direction)
    (hc : c = dot (r.origin - s.center) (r.origin - s.center) - s.radius * s.radius)
    (hdis : dis = b * b - a * c) :
    (dis < 0 → s.hit r i = none) ∧
    (¬ i.containsF (fdiv (-b - Real.sqrt dis) a) → s.hit r i = none) ∧
    ∀ rec, s.hit r i = some rec →
      fdiv (-b - Real.sqrt dis) a = .fin rec.t ∧
      (i.lo ≤ rec.t ∧ rec.t < i.hi) ∧
      rec.point = r.origin + rec.t • r.direction ∧
      dot (rec.point - s.center) (rec.point - s.center) = s.radius * s.radius ∧
      rec.normal = Vec3.normalize (rec.point - s.center) ∧
      rec.material = s.material ∧
      (s.radius ≠ 0 → dot rec.normal rec.normal = 1) := by
  subst ha hb hc hdis
  refine ⟨sphere_hit_none_of_dis_neg s r i, sphere_hit_none_of_not_contained s r i, ?_⟩
  intro rec hrec
  simp only [Sphere.hit] at hrec
  by_cases hd : dot (r.origin - s.center) r.direction * dot (r.origin - s.center) r.direction
      - dot r.direction r.direction *
        (dot (r.origin - s.center) (r.origin - s.center) - s.radius * s.radius) < 0
  · rw [if_pos hd] at hrec; cases hrec
  · rw [if_neg hd] at hrec
    split at hrec
    next t heq =>
      split at hrec
      next hcont =>
        injection hrec with hrec
        subst hrec
        obtain ⟨hane, htv⟩ := fdiv_eq_fin heq
        push_neg at hd
        have hquad := quad_root_eq (dot r.direction r.direction)
          (dot (r.origin - s.center) r.direction)
          (dot (r.origin - s.center) (r.origin - s.center) - s.radius * s.radius)
          t hane hd htv
        have hpt : (r.origin - s.center) + t • r.direction + s.center - s.center
            = (r.origin - s.center) + t • r.direction := by
          apply Vec3.eq_of_comps <;> simp
        have hsphere : dot ((r.origin - s.center) + t • r.direction)
            ((r.origin - s.center) + t • r.direction) = s.radius * s.radius :=
          sphere_root_on_sphere (r.origin - s.center) r.direction s.radius t hquad
        refine ⟨heq, hcont, ?_, ?_, ?_, rfl, ?_⟩
        · show (r.origin - s.center) + t • r.direction + s.center = r.origin + t • r.direction
          apply Vec3.eq_of_comps <;> simp <;> ring
        · show dot ((r.origin - s.center) + t • r.direction + s.center - s.center)
              ((r.origin - s.center) + t • r.direction + s.center - s.center)
            = s.radius * s.radius
          rw [hpt]
          exact hsphere
        · show Vec3.normalize ((r.origin - s.center) + t • r.direction)
            = Vec3.normalize ((r.origin - s.center) + t • r.direction + s.center - s.center)
          rw [hpt]
        · intro hr
          exact normalize_self_dot _ s.radius hsphere hr
      next hcont => cases hrec
    next hne => cases hrec

theorem sphere_hit_eval (s : Sphere) (r : Ray) (i : Range) (a b c q t : ℝ)
    (ha : dot r.direction r.direction = a)
    (hb : dot (r.origin - s.center) r.direction = b)
    (hc : dot (r.origin - s.center) (r.origin - s.center) - s.radius * s.radius = c)
    (hdis : ¬ b * b - a * c < 0)
    (hq : Real.sqrt (b * b - a * c) = q)
    (hane : a ≠ 0)
    (ht : (-b - q) / a = t)
    (hcont : i.lo ≤ t ∧ t < i.hi) :
    s.hit r i = some
      { point := (r.origin - s.center) + t • r.direction + s.center
        normal := Vec3.normalize ((r.origin - s.center) + t • r.direction)
        t := t
        material := s.material } := by
  simp only [Sphere.hit, ha, hb, hc]
  rw [if_neg hdis]
  have hf : fdiv (-b - Real.sqrt (b * b - a * c)) a = .fin t := by
    unfold fdiv
    rw [if_neg hane, hq, ht]
  simp only [hf]
  rw [if_pos hcont]

theorem sphere_hit_none_eval (s : Sphere) (r : Ray) (i : Range) (a b c q t : ℝ)
    (ha : dot r.direction r.direction = a)
    (hb : dot (r.origin - s.center) r.direction = b)
    (hc : dot (r.origin - s.center) (r.origin - s.center) - s.radius * s.radius = c)
    (hdis : ¬ b * b - a * c < 0)
    (hq : Real.sqrt (b * b - a * c) = q)
    (hane : a ≠ 0)
    (ht : (-b - q) / a = t)
    (hncont : ¬ (i.lo ≤ t ∧ t < i.hi)) :
    s.hit r i = none := by
  simp only [Sphere.hit, ha, hb, hc]
  rw [if_neg hdis]
  have hf : fdiv (-b - Real.sqrt (b * b - a * c)) a = .fin t := by
    unfold fdiv
    rw [if_neg hane, hq, ht]
  simp only [hf]
  rw [if_neg hncont]

theorem plane_hit_eval (p : Plane) (r : Ray) (i : Range) (num den t : ℝ)
    (hnum : dot p.normal (p.point - r.origin) = num)
    (hden : dot p.normal r.direction = den)
    (hdne : den ≠ 0)
    (ht : num / den = t)
    (hcont : i.lo ≤ t ∧ t < i.hi) :
    p.hit r i = some { point := r.origin + t • r.direction, normal := p.normal, t := t,
                       material := p.material } := by
  have hf : fdiv (dot p.normal (p.point - r.origin)) (dot p.normal r.direction) = .fin t := by
    rw [hnum, hden]
    unfold fdiv
    rw [if_neg hdne, ht]
  simp only [Plane.hit, hf]
  rw [if_pos hcont]

theorem sphere_hit_characterization_witness :
    Sphere.hit ⟨⟨0, 0, 3⟩, 1, Mat.default⟩ ⟨⟨0, 0, 0⟩, ⟨0, 0, 1⟩⟩ ⟨1 / 10, 10⟩ =
      some ⟨⟨0, 0, 2⟩, ⟨0, 0, -1⟩, 2, Mat.default⟩ ∧
    dot ((⟨0, 0, 2⟩ : Vec3) - ⟨0, 0, 3⟩) ((⟨0, 0, 2⟩ : Vec3) - ⟨0, 0, 3⟩) = 1 * 1 ∧
    dot (⟨0, 0, -1⟩ : Vec3) (⟨0, 0, -1⟩ : Vec3) = 1 := by
  have heval : Sphere.hit ⟨⟨0, 0, 3⟩, 1, Mat.default⟩ ⟨⟨0, 0, 0⟩, ⟨0, 0, 1⟩⟩ ⟨1 / 10, 10⟩ =
      some ⟨⟨0, 0, 2⟩, ⟨0, 0, -1⟩, 2, Mat.default⟩ := by
    have h := sphere_hit_eval ⟨⟨0, 0, 3⟩, 1, Mat.default⟩ ⟨⟨0, 0, 0⟩, ⟨0, 0, 1⟩⟩ ⟨1 / 10, 10⟩
      1 (-3) 8 1 2
      (by norm_num [dot]) (by norm_num [dot]) (by norm_num [dot]) (by norm_num)
      (by rw [show ((-3 : ℝ) * (-3) - 1 * 8) = 1 by norm_num]; exact Real.sqrt_one)
      (by norm_num) (by norm_num) (by norm_num)
    rw [h]
    norm_num [Vec3.normalize, dot, Real.sqrt_one, Vec3.mk.injEq, HitRecord.mk.injEq]
  have hmain := (sphere_hit_characterization ⟨⟨0, 0, 3⟩, 1, Mat.default⟩
    ⟨⟨0, 0, 0⟩, ⟨0, 0, 1⟩⟩ ⟨1 / 10, 10⟩ _ _ _ _ rfl rfl rfl rfl).2.2 _ heval
  exact ⟨heval, hmain.2.2.2.1, hmain.2.2.2.2.2.2 (by norm_num)⟩

theorem hitList_cons (sh : Shape) (rest : List Shape) (r : Ray) (i : Range) :
    hitList (sh :: rest) r i =
      match sh.hit r i, hitList rest r i with
      | none, later => later
      | some b, none => some b
      | some b, some h => if h.t < b.t then some h else some b := rfl

theorem hitList_min_of_decomp {hits : List HitRecord} {rec : HitRecord}
    (pre suf : List HitRecord) (hdec : hits = pre ++ rec :: suf)
    (hpre : ∀ h ∈ pre, rec.t < h.t) (hsuf : ∀ h ∈ suf, rec.t ≤ h.t) :
    ∀ h ∈ hits, rec.t ≤ h.t := by
  intro h hh
  rw [hdec] at hh
  rcases List.mem_append.mp hh with hh | hh
  · exact le_of_lt (hpre h hh)
  · rcases List.mem_cons.mp hh with hh | hh
    · rw [hh]
    · exact hsuf h hh

theorem hitList_spec (shapes : List Shape) (r : Ray) (i : Range) :
    (hitList shapes r i = none ↔ shapes.filterMap (fun sh => sh.hit r i) = []) ∧
    ∀ rec, hitList shapes r i = some rec →
      ∃ pre suf, shapes.filterMap (fun sh => sh.hit r i) = pre ++ rec :: suf ∧
        (∀ h ∈ pre, rec.t < h.t) ∧ (∀ h ∈ suf, rec.t ≤ h.t) := by
  induction shapes with
  | nil => simp [hitList]
  | cons sh rest ih =>
    rw [hitList_cons, List.filterMap_cons]
    cases hsh : sh.hit r i with
    | none =>
      simp only [hsh]
      exact ih
    | some b =>
      simp only [hsh]
      cases hrest : hitList rest r i with
      | none =>
        have hfm : rest.filterMap (fun s => s.hit r i) = [] := ih.1.mp hrest
        simp only [hrest, hfm]
        constructor
        · simp
        · intro rec hrec
          injection hrec with hrec
          subst hrec
          exact ⟨[], [], rfl, by simp, by simp⟩
      | some h =>
        simp only [hrest]
        obtain ⟨pre, suf, hdec, hpre, hsuf⟩ := ih.2 h hrest
        by_cases hlt : h.t < b.t
        · rw [if_pos hlt]
          constructor
          · simp
          · intro rec hrec
            injection hrec with hrec
            subst hrec
            refine ⟨b :: pre, suf, ?_, ?_, hsuf⟩
            · rw [hdec, List.cons_append]
            · intro x hx
              rcases List.mem_cons.mp hx with hx | hx
              · rw [hx]; exact hlt
              · exact hpre x hx
        · rw [if_neg hlt]
          push_neg at hlt
          have hmin : ∀ x ∈ rest.filterMap (fun s => s.hit r i), h.t ≤ x.t :=
            hitList_min_of_decomp pre suf hdec hpre hsuf
          constructor
          · simp
          · intro rec hrec
            injection hrec with hrec
            subst hrec
            refine ⟨[], _, rfl, by simp, ?_⟩
            intro x hx
            exact le_trans hlt (hmin x hx)

/-- Claim C1: `Scene::hit` scans all shapes against the same caller-supplied
interval; the result is `none` exactly when no shape reports a hit (in
particular for the empty scene), and otherwise it is a reported hit of
minimal `t`, the earliest one in iteration order among the ties: every hit
collected before it has strictly larger `t` and every one after it has `t`
at least as large. -/
theorem scene_hit_nearest (s : Scene) (r : Ray) (i : Range) :
    (s.hit r i = none ↔ s.shapes.filterMap (fun sh => sh.hit r i) = []) ∧
    ∀ rec, s.hit r i = some rec →
      ∃ pre suf, s.shapes.filterMap (fun sh => sh.hit r i) = pre ++ rec :: suf ∧
        (∀ h ∈ pre, rec.t < h.t) ∧ (∀ h ∈ suf, rec.t ≤ h.t) :=
  hitList_spec s.shapes r i

theorem scene_hit_nearest_witness :
    Scene.hit (Scene.new [Shape.plane ⟨⟨0, 0, 1⟩, ⟨0, 0, 1⟩, Mat.default⟩,
        Shape.plane ⟨⟨0, 0, 1⟩, ⟨0, 0, 2⟩, { Mat.default with roughness := 1 }⟩])
      ⟨⟨0, 0, 0⟩, ⟨0, 0, 1⟩⟩ ⟨1 / 2, 10⟩ = some ⟨⟨0, 0, 1⟩, ⟨0, 0, 1⟩, 1, Mat.default⟩ ∧
    ∃ pre suf,
      (Scene.new [Shape.plane ⟨⟨0, 0, 1⟩, ⟨0, 0, 1⟩, Mat.default⟩,
          Shape.plane ⟨⟨0, 0, 1⟩, ⟨0, 0, 2⟩, { Mat.default with roughness := 1 }⟩]).shapes.filterMap
        (fun sh => sh.hit ⟨⟨0, 0, 0⟩, ⟨0, 0, 1⟩⟩ ⟨1 / 2, 10⟩) =
          pre ++ (⟨⟨0, 0, 1⟩, ⟨0, 0, 1⟩, 1, Mat.default⟩ : HitRecord) :: suf ∧
      (∀ h ∈ pre, (1 : ℝ) < h.t) ∧ (∀ h ∈ suf, (1 : ℝ) ≤ h.t) := by
  have h1 : Plane.hit ⟨⟨0, 0, 1⟩, ⟨0, 0, 1⟩, Mat.default⟩ ⟨⟨0, 0, 0⟩, ⟨0, 0, 1⟩⟩ ⟨1 / 2, 10⟩ =
      some ⟨⟨0, 0, 1⟩, ⟨0, 0, 1⟩, 1, Mat.default⟩ := by
    have h := plane_hit_eval ⟨⟨0, 0, 1⟩, ⟨0, 0, 1⟩, Mat.default⟩ ⟨⟨0, 0, 0⟩, ⟨0, 0, 1⟩⟩
      ⟨1 / 2, 10⟩ 1 1 1
      (by norm_num [dot]) (by norm_num [dot]) (by norm_num) (by norm_num) (by norm_num)
    rw [h]
    norm_num [Vec3.mk.injEq, HitRecord.mk.injEq]
  have h2 : Plane.hit ⟨⟨0, 0, 1⟩, ⟨0, 0, 2⟩, { Mat.default with roughness := 1 }⟩
      ⟨⟨0, 0, 0⟩, ⟨0, 0, 1⟩⟩ ⟨1 / 2, 10⟩ =
      some ⟨⟨0, 0, 1⟩, ⟨0, 0, 2⟩, 1, { Mat.default with roughness := 1 }⟩ := by
    have h := plane_hit_eval ⟨⟨0, 0, 1⟩, ⟨0, 0, 2⟩, { Mat.default with roughness := 1 }⟩
      ⟨⟨0, 0, 0⟩, ⟨0, 0, 1⟩⟩ ⟨1 / 2, 10⟩ 2 2 1
      (by norm_num [dot]) (by norm_num [dot]) (by norm_num) (by norm_num) (by norm_num)
    rw [h]
    norm_num [Vec3.mk.injEq, HitRecord.mk.injEq]
  have heval : Scene.hit (Scene.new [Shape.plane ⟨⟨0, 0, 1⟩, ⟨0, 0, 1⟩, Mat.default⟩,
      Shape.plane ⟨⟨0, 0, 1⟩, ⟨0, 0, 2⟩, { Mat.default with roughness := 1 }⟩])
      ⟨⟨0, 0, 0⟩, ⟨0, 0, 1⟩⟩ ⟨1 / 2, 10⟩ = some ⟨⟨0, 0, 1⟩, ⟨0, 0, 1⟩, 1, Mat.default⟩ := by
    simp only [Scene.hit, Scene.new, hitList, Shape.hit, h1, h2]
    norm_num
  exact ⟨heval, (scene_hit_nearest _ _ _).2 _ heval⟩

theorem sqrt_ten_thousand : Real.sqrt 10000 = 100 := by
  rw [show (10000 : ℝ) = 100 ^ 2 by norm_num]
  exact Real.sqrt_sq (by norm_num)

/-- Claim C6 counterexample: in the default scene the ray straight down from
`(0,5,0)` — a point above the origin — returns the hit of the first
foreground sphere (the unit sphere at the origin, `t = 4`, magenta
material), not the ground sphere's hit (its root along this ray is `t = 6`,
and its material differs from the returned one). -/
theorem default_scene_ray_down_counterexample :
    Scene.hit Scene.default ⟨⟨0, 5, 0⟩, ⟨0, -1, 0⟩⟩ ⟨1 / 10, 1000⟩ =
      some ⟨⟨0, 1, 0⟩, ⟨0, 1, 0⟩, 4,
        { Mat.default with albedo := Color.rgb 1 0 1, roughness := 0.8 }⟩ ∧
    ({ Mat.default with albedo := Color.rgb 1 0 1, roughness := 0.8 } : Mat) ≠
      { Mat.default with albedo := Color.rgb 0.2 0.3 6, roughness := 0.5 } := by
  constructor
  · have h1 : Sphere.hit
        ⟨⟨0, 0, 0⟩, 1, { Mat.default with albedo := Color.rgb 1 0 1, roughness := 0.8 }⟩
        ⟨⟨0, 5, 0⟩, ⟨0, -1, 0⟩⟩ ⟨1 / 10, 1000⟩ =
        some ⟨⟨0, 1, 0⟩, ⟨0, 1, 0⟩, 4,
          { Mat.default with albedo := Color.rgb 1 0 1, roughness := 0.8 }⟩ := by
      have h := sphere_hit_eval
        ⟨⟨0, 0, 0⟩, 1, { Mat.default with albedo := Color.rgb 1 0 1, roughness := 0.8 }⟩
        ⟨⟨0, 5, 0⟩, ⟨0, -1, 0⟩⟩ ⟨1 / 10, 1000⟩ 1 (-5) 24 1 4
        (by norm_num [dot]) (by norm_num [dot]) (by norm_num [dot]) (by norm_num)
        (by rw [show ((-5 : ℝ) * (-5) - 1 * 24) = 1 by norm_num]; exact Real.sqrt_one)
        (by norm_num) (by norm_num) (by norm_num)
      rw [h]
      norm_num [Vec3.normalize, dot, Real.sqrt_one, Vec3.mk.injEq, HitRecord.mk.injEq]
    have h2 : Sphere.hit
        ⟨⟨2, 0, -1⟩, 1, { Mat.default with albedo := Color.rgb 0.2 0.7 0.1, roughness := 0.6 }⟩
        ⟨⟨0, 5, 0⟩, ⟨0, -1, 0⟩⟩ ⟨1 / 10, 1000⟩ = none := by
      apply sphere_hit_none_of_dis_neg
      norm_num [dot]
    have h3 : Sphere.hit
        ⟨⟨0, -101, 0⟩, 100, { Mat.default with albedo := Color.rgb 0.2 0.3 6, roughness := 0.5 }⟩
        ⟨⟨0, 5, 0⟩, ⟨0, -1, 0⟩⟩ ⟨1 / 10, 1000⟩ =
        some ⟨⟨0, -1, 0⟩, ⟨0, 1, 0⟩, 6,
          { Mat.default with albedo := Color.rgb 0.2 0.3 6, roughness := 0.5 }⟩ := by
      have h := sphere_hit_eval
        ⟨⟨0, -101, 0⟩, 100, { Mat.default with albedo := Color.rgb 0.2 0.3 6, roughness := 0.5 }⟩
        ⟨⟨0, 5, 0⟩, ⟨0, -1, 0⟩⟩ ⟨1 / 10, 1000⟩ 1 (-106) 1236 100 6
        (by norm_num [dot]) (by norm_num [dot]) (by norm_num [dot]) (by norm_num)
        (by rw [show ((-106 : ℝ) * (-106) - 1 * 1236) = 10000 by norm_num]
            exact sqrt_ten_thousand)
        (by norm_num) (by norm_num) (by norm_num)
      rw [h]
      norm_num [Vec3.normalize, dot, sqrt_ten_thousand, Vec3.mk.injEq, HitRecord.mk.injEq]
    have h4 : Sphere.hit
        ⟨⟨100, 101, -20⟩, 100,
          { Mat.default with emission := 3, emission_color := Color.rgb 0.9 0.9 0.7 }⟩
        ⟨⟨0, 5, 0⟩, ⟨0, -1, 0⟩⟩ ⟨1 / 10, 1000⟩ = none := by
      apply sphere_hit_none_of_dis_neg
      norm_num [dot]
    simp only [Scene.hit, Scene.default, Scene.new, hitList, Shape.hit, h1, h2, h3, h4]
    norm_num
  · norm_num [Mat.default, Color.rgb, Mat.mk.injEq, Color.mk.injEq]

/-- Claim C6 amended: in the default scene, a ray cast straight down from a
point `(0,h,0)` above the origin and strictly inside the first foreground
sphere (`0 < h < 1`) returns the ground sphere's hit (at `t = h + 1`, point
`(0,-1,0)`) for every interval with `0 < lo ≤ h + 1 < hi`: the foreground
sphere at the origin is missed because only the near root is checked, and
the other spheres are not intersected by this ray. -/
theorem default_scene_ray_down_inside_hits_ground (h lo hi : ℝ)
    (h0 : 0 < h) (h1 : h < 1) (hlo : 0 < lo) (hlo2 : lo ≤ h + 1) (hhi : h + 1 < hi) :
    Scene.hit Scene.default ⟨⟨0, h, 0⟩, ⟨0, -1, 0⟩⟩ ⟨lo, hi⟩ =
      some ⟨⟨0, -1, 0⟩, ⟨0, 1, 0⟩, h + 1,
        { Mat.default with albedo := Color.rgb 0.2 0.3 6, roughness := 0.5 }⟩ := by
  have hs1 : Sphere.hit
      ⟨⟨0, 0, 0⟩, 1, { Mat.default with albedo := Color.rgb 1 0 1, roughness := 0.8 }⟩
      ⟨⟨0, h, 0⟩, ⟨0, -1, 0⟩⟩ ⟨lo, hi⟩ = none := by
    apply sphere_hit_none_eval _ _ _ 1 (-h) (h * h - 1) 1 (h - 1)
    · norm_num [dot]
    · simp only [dot, Vec3.sub_x, Vec3.sub_y, Vec3.sub_z]; ring
    · simp only [dot, Vec3.sub_x, Vec3.sub_y, Vec3.sub_z]; ring
    · rw [show (-h) * (-h) - 1 * (h * h - 1) = 1 by ring]; norm_num
    · rw [show (-h) * (-h) - 1 * (h * h - 1) = 1 by ring]; exact Real.sqrt_one
    · norm_num
    · rw [div_one]; ring
    · rintro ⟨hx, _⟩; linarith
  have hs2 : Sphere.hit
      ⟨⟨2, 0, -1⟩, 1, { Mat.default with albedo := Color.rgb 0.2 0.7 0.1, roughness := 0.6 }⟩
      ⟨⟨0, h, 0⟩, ⟨0, -1, 0⟩⟩ ⟨lo, hi⟩ = none := by
    apply sphere_hit_none_of_dis_neg
    simp only [dot, Vec3.sub_x, Vec3.sub_y, Vec3.sub_z]
    nlinarith [sq_nonneg h]
  have hs3 : Sphere.hit
      ⟨⟨0, -101, 0⟩, 100, { Mat.default with albedo := Color.rgb 0.2 0.3 6, roughness := 0.5 }⟩
      ⟨⟨0, h, 0⟩, ⟨0, -1, 0⟩⟩ ⟨lo, hi⟩ =
      some ⟨⟨0, -1, 0⟩, ⟨0, 1, 0⟩, h + 1,
        { Mat.default with albedo := Color.rgb 0.2 0.3 6, roughness := 0.5 }⟩ := by
    have he := sphere_hit_eval
      ⟨⟨0, -101, 0⟩, 100, { Mat.default with albedo := Color.rgb 0.2 0.3 6, roughness := 0.5 }⟩
      ⟨⟨0, h, 0⟩, ⟨0, -1, 0⟩⟩ ⟨lo, hi⟩ 1 (-(h + 101)) ((h + 101) * (h + 101) - 10000)
      100 (h + 1)
      (by norm_num [dot])
      (by simp only [dot, Vec3.sub_x, Vec3.sub_y, Vec3.sub_z]; ring)
      (by simp only [dot, Vec3.sub_x, Vec3.sub_y, Vec3.sub_z]; ring)
      (by rw [show -(h + 101) * -(h + 101) - 1 * ((h + 101) * (h + 101) - 10000) = 10000
            by ring]
          norm_num)
      (by rw [show -(h + 101) * -(h + 101) - 1 * ((h + 101) * (h + 101) - 10000) = 10000
            by ring]
          exact sqrt_ten_thousand)
      (by norm_num) (by rw [div_one]; ring) ⟨hlo2, hhi⟩
    rw [he]
    have hv : (⟨0, h, 0⟩ : Vec3) - ⟨0, -101, 0⟩ + (h + 1) • (⟨0, -1, 0⟩ : Vec3)
        = (⟨0, 100, 0⟩ : Vec3) := by
      apply Vec3.eq_of_comps
      · simp
      · simp only [Vec3.sub_y, Vec3.add_y, Vec3.smul_y]; ring
      · simp
    rw [hv]
    norm_num [Vec3.normalize, dot, sqrt_ten_thousand, Vec3.mk.injEq, HitRecord.mk.injEq]
  have hs4 : Sphere.hit
      ⟨⟨100, 101, -20⟩, 100,
        { Mat.default with emission := 3, emission_color := Color.rgb 0.9 0.9 0.7 }⟩
      ⟨⟨0, h, 0⟩, ⟨0, -1, 0⟩⟩ ⟨lo, hi⟩ = none := by
    apply sphere_hit_none_of_dis_neg
    simp only [dot, Vec3.sub_x, Vec3.sub_y, Vec3.sub_z]
    nlinarith [sq_nonneg (h - 101)]
  simp only [Scene.hit, Scene.default, Scene.new, hitList, Shape.hit, hs1, hs2, hs3, hs4]

theorem default_scene_ray_down_inside_hits_ground_witness :
    Scene.hit Scene.default ⟨⟨0, 1 / 2, 0⟩, ⟨0, -1, 0⟩⟩ ⟨1 / 10, 1000⟩ =
      some ⟨⟨0, -1, 0⟩, ⟨0, 1, 0⟩, 1 / 2 + 1,
        { Mat.default with albedo := Color.rgb 0.2 0.3 6, roughness := 0.5 }⟩ :=
  default_scene_ray_down_inside_hits_ground (1 / 2) (1 / 10) 1000
    (by norm_num) (by norm_num) (by norm_num) (by norm_num) (by norm_num)
